import Mathlib

/-
  Verification of the CAN telemetry poller (src/can-telemetry.cpp).

  Shallow embedding: the `CANTelemetry` class methods become Lean functions.
  The external CAN bus collaborator (filters, transmit, receive, error
  status) is modelled as explicit state plus an event log; the nondeterministic
  environment (error status, clock readings, frames available at each
  receive attempt) is an explicit oracle `BusEnv`.

  Machine integers: `uint64_t` values are `Nat` (results are reduced where the
  C code truncates); `int len` is `Int`; `unsigned long` (32-bit) clock
  subraction is modelled by `usub32`.
-/

namespace CANTelemetry

/-- The all-ones 64-bit value: `(uint64_t)(-1)`, returned on every failure
path of `poll`. -/
def SENTINEL : Nat := 2 ^ 64 - 1

/-- Modelled from the spec: `errorStatus() → enum{NO_ERROR, ...}` of the bus
collaborator; the enum values are not under src/, only the comparison with
`CAN_NO_ERROR` matters, so `NO_ERROR` is 0 and other error states are any
other `Nat`. -/
def CAN_NO_ERROR : Nat := 0

/-- Modelled from the spec: mode constant for the query/response mode
(spec name QUERY_RESPONSE, source name CALL_AND_RESP); defined in the
missing header `can-telemetry.h`.  Only its distinctness from
`PASSIVE_POLL` is used. -/
def CALL_AND_RESP : Nat := 1

/-- Modelled from the spec: mode constant for the passive listening mode
(spec name PASSIVE_LISTEN, source name PASSIVE_POLL); defined in the
missing header `can-telemetry.h`. -/
def PASSIVE_POLL : Nat := 0

/-- A CAN frame as used by the collaborator: identifier, data length code,
remote-frame flag, and 8 data bytes.  A default-constructed `CANMessage`
has all fields zeroed. -/
structure CANMessage where
  id : Nat := 0
  len : Nat := 0
  rtr : Bool := false
  data : List Nat := List.replicate 8 0
  deriving DecidableEq, Repr

/-- One observable interaction with the bus collaborator. -/
inductive BusEvent where
  | clearFilters : BusEvent
  | addFilter : Nat → Nat → BusEvent
  | transmit : CANMessage → BusEvent
  | errorCheck : BusEvent
  | receiveAttempt : BusEvent
  deriving DecidableEq, Repr

/-- Tests whether an event is a `BusEvent.transmit` event. -/
def BusEvent.isTransmit : BusEvent → Bool
  | BusEvent.transmit _ => true
  | _ => false

/-- The bus collaborator's state visible to this component: the list of
installed acceptance filters, plus the log of every interaction so far. -/
structure BusState where
  filters : List (Nat × Nat)
  log : List BusEvent
  deriving DecidableEq, Repr

/-- Bus operation `clearFilters()`: remove all active receive filters. -/
def clearFilters (b : BusState) : BusState :=
  ⟨[], b.log ++ [BusEvent.clearFilters]⟩

/-- Bus operation `addFilter(id, mask)`: install one acceptance filter entry. -/
def addFilter (b : BusState) (id mask : Nat) : BusState :=
  ⟨b.filters ++ [(id, mask)], b.log ++ [BusEvent.addFilter id mask]⟩

/-- Bus operation `transmit(frame)`: send a frame (logged; filters unchanged). -/
def transmit (b : BusState) (m : CANMessage) : BusState :=
  ⟨b.filters, b.log ++ [BusEvent.transmit m]⟩

/-- Source method `_set_mask(int mask)` (can-telemetry.cpp:115-118): clear all filters and
install the single filter `(mask, 0x7FF)`. -/
def set_mask (b : BusState) (mask : Nat) : BusState :=
  addFilter (clearFilters b) mask 0x7FF

/-- Source method `_set_mask()` (can-telemetry.cpp:123-125): default overload, sets the
filter to the node identifier. -/
def set_mask_default (node_id : Nat) (b : BusState) : BusState :=
  set_mask b node_id

/-- Source method `_decode(uint8_t* arr, int len)` (can-telemetry.cpp:103-109): copy the
first `len` bytes into an 8-byte zero-filled buffer `n` and reinterpret it
as a little-endian `uint64_t` (byte 0 least significant). -/
def decode (arr : List Nat) (len : Nat) : Nat :=
  (List.range 8).foldr
    (fun i acc => (if i < len then arr.getD i 0 else 0) + 256 * acc) 0

/-- The environment oracle for one `poll` call: the bus error status read at
can-telemetry.cpp:57, the `millis()` reading taken for `t_stamp` at line 59,
and for each iteration of the wait loop the frame delivered by `receive`
(line 61, `none` = no frame available) together with the `millis()` reading
used by the timeout check (line 65). -/
structure BusEnv where
  errorStatus : Nat
  t0 : Nat
  steps : List (Option CANMessage × Nat)
  deriving DecidableEq, Repr

/-- Result of a `poll` call: the returned `uint64_t` (`none` when the
environment trace `steps` runs out before the wait loop exits, i.e. the call
is still spinning) and the final bus state. -/
structure PollResult where
  ret : Option Nat
  bus : BusState
  deriving DecidableEq, Repr

/-- Unsigned 32-bit subtraction `a - b`, as performed on the `unsigned long`
values of `millis()` at can-telemetry.cpp:65. -/
def usub32 (a b : Nat) : Nat :=
  (a % 2 ^ 32 + (2 ^ 32 - b % 2 ^ 32)) % 2 ^ 32

/-- The wait loop of `poll` (can-telemetry.cpp:60-69): each iteration
attempts a receive; on a frame, restore the default filter and return the
decoded value; otherwise, if `millis() - t_stamp >= _timeout`, restore the
default filter and return the sentinel; otherwise loop. -/
def pollWait (node_id timeout t0 : Nat)
    (steps : List (Option CANMessage × Nat)) (b : BusState) : PollResult :=
  match steps with
  | [] => ⟨none, b⟩
  | (rcv, t) :: rest =>
    let b1 : BusState := ⟨b.filters, b.log ++ [BusEvent.receiveAttempt]⟩
    match rcv with
    | some response =>
      ⟨some (decode response.data response.len), set_mask_default node_id b1⟩
    | none =>
      if usub32 t t0 ≥ timeout then
        ⟨some SENTINEL, set_mask_default node_id b1⟩
      else
        pollWait node_id timeout t0 rest b1

/-- The transmitted data buffer (can-telemetry.cpp:50-52): a default-zeroed
8-byte array with `data[i] = payload[i]` for `0 ≤ i < len`. -/
def writeData (payload : List Nat) (n : Nat) : List Nat :=
  (List.range n).foldl (fun d i => d.set i (payload.getD i 0))
    (List.replicate 8 0)

/-- Truncation to `uint8_t` of the `int` length stored into `message.len`
(can-telemetry.cpp:48). -/
def u8ofInt (x : Int) : Nat := (x % 256).toNat

/-- Source method `CANTelemetry::poll(header, filter, mode, frame, payload, len)`
(can-telemetry.cpp:36-77).  `node_id` and `timeout` are the object fields
`_node_id` and `_timeout`; `env` is the environment oracle; `b` is the bus
state at entry. -/
def poll (node_id timeout : Nat) (env : BusEnv)
    (header filter : Nat) (mode : Nat) (frame : Bool)
    (payload : List Nat) (len : Int) (b : BusState) : PollResult :=
  if len > 8 then ⟨some SENTINEL, b⟩
  else
    let b2 := set_mask b filter
    let b3 :=
      if mode = CALL_AND_RESP then
        transmit b2 ⟨header, u8ofInt len, frame, writeData payload len.toNat⟩
      else b2
    let b4 : BusState := ⟨b3.filters, b3.log ++ [BusEvent.errorCheck]⟩
    if env.errorStatus = CAN_NO_ERROR then
      pollWait node_id timeout env.t0 env.steps b4
    else
      let b5 := transmit b4 ⟨node_id, 0, false, List.replicate 8 0⟩
      ⟨some SENTINEL, set_mask_default node_id b5⟩

/-- Source method `CANTelemetry::poll(header, mode, frame, payload, len)`
(can-telemetry.cpp:87-90): overload delegating with `filter = header`. -/
def pollOverload (node_id timeout : Nat) (env : BusEnv)
    (header : Nat) (mode : Nat) (frame : Bool)
    (payload : List Nat) (len : Int) (b : BusState) : PollResult :=
  poll node_id timeout env header header mode frame payload len b

/-- The idle bus state between `poll` calls: default filter installed, an
empty interaction log for the call under analysis. -/
def idle (node_id : Nat) : BusState :=
  ⟨[(node_id, 0x7FF)], []⟩

/-- The little-endian packing the spec describes: the sum over `i < length`
of `bytes[i] * 2^(8*i)`. -/
def decodeSpec (arr : List Nat) (len : Nat) : Nat :=
  ∑ i ∈ Finset.range len, arr.getD i 0 * 2 ^ (8 * i)

/-! ## Helper lemmas -/

/-- Applying the default mask always yields exactly the default filter. -/
lemma set_mask_default_filters (node_id : Nat) (b : BusState) :
    (set_mask_default node_id b).filters = [(node_id, 0x7FF)] := by
  simp [set_mask_default, set_mask, addFilter, clearFilters]

/-- Whenever the wait loop exits with a return value, the default filter has
been restored. -/
lemma pollWait_filters (node_id timeout t0 : Nat) :
    ∀ (steps : List (Option CANMessage × Nat)) (b : BusState) (r : Nat),
      (pollWait node_id timeout t0 steps b).ret = some r →
      (pollWait node_id timeout t0 steps b).bus.filters = [(node_id, 0x7FF)] := by
  intro steps
  induction steps with
  | nil => intro b r hr; simp [pollWait] at hr
  | cons s rest ih =>
    intro b r hr
    obtain ⟨rcv, t⟩ := s
    cases rcv with
    | some response =>
      simp [pollWait, set_mask_default_filters]
    | none =>
      by_cases ht : usub32 t t0 ≥ timeout
      · simp [pollWait, ht, set_mask_default_filters]
      · simp only [pollWait, if_neg ht] at hr ⊢
        exact ih _ r hr

/-- If every step before some point delivers no frame and is below the
timeout, the wait loop reaches that point; a frame there is decoded and
returned with the default filter restored. -/
lemma pollWait_receive (node_id timeout t0 : Nat) (m : CANMessage) (t : Nat)
    (rest : List (Option CANMessage × Nat)) :
    ∀ (pre : List (Option CANMessage × Nat)) (b : BusState),
      (∀ s ∈ pre, s.1 = none ∧ usub32 s.2 t0 < timeout) →
      (pollWait node_id timeout t0 (pre ++ (some m, t) :: rest) b).ret
          = some (decode m.data m.len) ∧
      (pollWait node_id timeout t0 (pre ++ (some m, t) :: rest) b).bus.filters
          = [(node_id, 0x7FF)] := by
  intro pre
  induction pre with
  | nil =>
    intro b _
    simp [pollWait, set_mask_default_filters]
  | cons s pre' ih =>
    intro b hpre
    obtain ⟨rcv, t'⟩ := s
    have hs := hpre (rcv, t') (by simp)
    have hrcv : rcv = none := hs.1
    have ht' : ¬ usub32 t' t0 ≥ timeout := not_le.mpr hs.2
    subst hrcv
    simp only [List.cons_append, pollWait, if_neg ht']
    exact ih _ (fun s hs' => hpre s (List.mem_cons_of_mem _ hs'))

/-- If every step before some point delivers no frame and is below the
timeout, and at that point no frame arrives and the elapsed time has reached
the timeout, the wait loop returns the sentinel with the default filter
restored. -/
lemma pollWait_timeout (node_id timeout t0 : Nat) (t : Nat)
    (rest : List (Option CANMessage × Nat)) (ht : usub32 t t0 ≥ timeout) :
    ∀ (pre : List (Option CANMessage × Nat)) (b : BusState),
      (∀ s ∈ pre, s.1 = none ∧ usub32 s.2 t0 < timeout) →
      (pollWait node_id timeout t0 (pre ++ (none, t) :: rest) b).ret
          = some SENTINEL ∧
      (pollWait node_id timeout t0 (pre ++ (none, t) :: rest) b).bus.filters
          = [(node_id, 0x7FF)] := by
  intro pre
  induction pre with
  | nil =>
    intro b _
    simp [pollWait, ht, set_mask_default_filters]
  | cons s pre' ih =>
    intro b hpre
    obtain ⟨rcv, t'⟩ := s
    have hs := hpre (rcv, t') (by simp)
    have hrcv : rcv = none := hs.1
    have ht' : ¬ usub32 t' t0 ≥ timeout := not_le.mpr hs.2
    subst hrcv
    simp only [List.cons_append, pollWait, if_neg ht']
    exact ih _ (fun s hs' => hpre s (List.mem_cons_of_mem _ hs'))

/-- The wait loop never transmits: if the log holds no transmit event at
entry, it holds none at exit. -/
lemma pollWait_no_transmit (node_id timeout t0 : Nat) :
    ∀ (steps : List (Option CANMessage × Nat)) (b : BusState),
      (b.log.all fun e => !e.isTransmit) = true →
      ((pollWait node_id timeout t0 steps b).bus.log.all
        fun e => !e.isTransmit) = true := by
  intro steps
  induction steps with
  | nil => intro b hb; simpa [pollWait] using hb
  | cons s rest ih =>
    intro b hb
    obtain ⟨rcv, t⟩ := s
    have hb1 : ((⟨b.filters, b.log ++ [BusEvent.receiveAttempt]⟩ :
        BusState).log.all fun e => !e.isTransmit) = true := by
      show ((b.log ++ [BusEvent.receiveAttempt]).all fun e => !e.isTransmit) = true
      rw [List.all_append, hb]
      simp [BusEvent.isTransmit]
    cases rcv with
    | some response =>
      simp only [pollWait]
      simp only [set_mask_default, set_mask, addFilter, clearFilters]
      simp only [List.all_append] at *
      simp [BusEvent.isTransmit] at hb1 ⊢
      exact hb1
    | none =>
      by_cases ht : usub32 t t0 ≥ timeout
      · simp only [pollWait, if_pos ht]
        simp only [set_mask_default, set_mask, addFilter, clearFilters]
        simp only [List.all_append] at *
        simp [BusEvent.isTransmit] at hb1 ⊢
        exact hb1
      · simp only [pollWait, if_neg ht]
        exact ih _ hb1

/-- Unfolding of `decode` to the little-endian sum the spec states, for any
length in `[0, 8]`. -/
lemma decode_eq_sum (arr : List Nat) (len : Nat) (h : len ≤ 8) :
    decode arr len = decodeSpec arr len := by
  interval_cases len <;>
    simp [decode, decodeSpec, Finset.sum_range_succ,
      show List.range 8 = [0, 1, 2, 3, 4, 5, 6, 7] from rfl] <;>
    ring

/-- Peeling one byte off the little-endian sum. -/
lemma decodeSpec_cons (a : Nat) (l : List Nat) (n : Nat) :
    decodeSpec (a :: l) (n + 1) = a + 256 * decodeSpec l n := by
  unfold decodeSpec
  rw [Finset.sum_range_succ']
  simp only [List.getD_cons_succ, List.getD_cons_zero, mul_one, pow_zero,
    Nat.mul_zero]
  rw [Finset.mul_sum, add_comm]
  congr 1
  refine Finset.sum_congr rfl fun i _ => ?_
  rw [show 8 * (i + 1) = 8 * i + 8 by ring, pow_add]
  ring

/-- The little-endian sum is injective on same-length byte lists. -/
lemma decodeSpec_inj : ∀ (a b : List Nat), a.length = b.length →
    (∀ x ∈ a, x < 256) → (∀ x ∈ b, x < 256) →
    decodeSpec a a.length = decodeSpec b b.length → a = b := by
  intro a
  induction a with
  | nil =>
    intro b hlen _ _ _
    exact (List.length_eq_zero.mp hlen.symm).symm
  | cons x xs ih =>
    intro b hlen hxa hxb heq
    cases b with
    | nil => simp at hlen
    | cons y ys =>
      have hx : x < 256 := hxa x (by simp)
      have hy : y < 256 := hxb y (by simp)
      simp only [List.length_cons] at hlen heq
      rw [decodeSpec_cons, decodeSpec_cons] at heq
      have hxy : x = y ∧ decodeSpec xs xs.length = decodeSpec ys ys.length := by
        constructor <;> omega
      have hrec : xs = ys :=
        ih ys (by omega) (fun z hz => hxa z (by simp [hz]))
          (fun z hz => hxb z (by simp [hz])) hxy.2
      rw [hxy.1, hrec]

/-- Every positional byte read through `getD` from a byte list is below 256. -/
lemma getD_lt_256 (arr : List Nat) (hb : ∀ x ∈ arr, x < 256) (i : Nat) :
    arr.getD i 0 < 256 := by
  rcases lt_or_ge i arr.length with hi | hi
  · have : arr.getD i 0 ∈ arr := by
      rw [List.getD_eq_getElem _ _ hi]
      exact List.getElem_mem hi
    exact hb _ this
  · rw [List.getD_eq_default _ _ hi]
    norm_num

/-- The little-endian sum of `len` bytes is below `2 ^ (8 * len)`. -/
lemma decodeSpec_lt (arr : List Nat) (hb : ∀ x ∈ arr, x < 256) :
    ∀ len : Nat, decodeSpec arr len < 2 ^ (8 * len) := by
  intro len
  induction len with
  | zero => simp [decodeSpec]
  | succ n ih =>
    have hd : arr.getD n 0 ≤ 255 := Nat.lt_succ_iff.mp (getD_lt_256 arr hb n)
    have h3 : arr.getD n 0 * 2 ^ (8 * n) ≤ 255 * 2 ^ (8 * n) :=
      Nat.mul_le_mul_right _ hd
    have hp : 2 ^ (8 * (n + 1)) = 256 * 2 ^ (8 * n) := by
      rw [show 8 * (n + 1) = 8 * n + 8 by ring, pow_add]
      ring
    have hsum : decodeSpec arr (n + 1)
        = decodeSpec arr n + arr.getD n 0 * 2 ^ (8 * n) := by
      unfold decodeSpec
      rw [Finset.sum_range_succ]
    omega

/-! ## Claims -/

/-- C1: for every call to `poll` whose precondition (`length ∈ [0,8]`) is
satisfied, on every exit path (frame received, timeout, or bus error) the
active receive filter equals `(node_identifier, 0x7FF)` when `poll` returns;
no exit path leaves a non-default filter installed. -/
theorem C1_poll_restores_default_filter (node_id timeout : Nat) (env : BusEnv)
    (header filter mode : Nat) (frame : Bool) (payload : List Nat) (len : Int)
    (b : BusState) (r : Nat) (h0 : 0 ≤ len) (h8 : len ≤ 8)
    (hr : (poll node_id timeout env header filter mode frame payload len
      b).ret = some r) :
    (poll node_id timeout env header filter mode frame payload len
      b).bus.filters = [(node_id, 0x7FF)] := by
  have hlen : ¬ len > 8 := by omega
  simp only [poll, if_neg hlen] at hr ⊢
  by_cases he : env.errorStatus = CAN_NO_ERROR
  · simp only [if_pos he] at hr ⊢
    exact pollWait_filters _ _ _ _ _ r hr
  · simp only [if_neg he] at hr ⊢
    exact set_mask_default_filters _ _

/-- Witness for C1: a concrete timing-out call whose exit restores the
default filter `(0x100, 0x7FF)`. -/
theorem C1_witness :
    (poll 0x100 50 ⟨CAN_NO_ERROR, 0, [(none, 100)]⟩ 0x200 0x200 CALL_AND_RESP
      false [1, 2] 2 (idle 0x100)).bus.filters = [(0x100, 0x7FF)] :=
  C1_poll_restores_default_filter 0x100 50 ⟨CAN_NO_ERROR, 0, [(none, 100)]⟩
    0x200 0x200 CALL_AND_RESP false [1, 2] 2 (idle 0x100) SENTINEL
    (by decide) (by decide) (by decide)

/-- Counterexample to C2: with the negative length `-1` (outside `[0,8]`) the
guard `len > 8` does not fire, and the call does interact with the bus — a
frame is transmitted, contradicting "no transmit and no filter change". -/
theorem C2_counterexample_negative_len :
    (-1 : Int) < 0 ∧
    ((poll 0x100 50 ⟨CAN_NO_ERROR, 0, [(none, 100)]⟩ 0x200 0x200 CALL_AND_RESP
      false [1, 2] (-1) (idle 0x100)).bus.log.any
        fun e => e.isTransmit) = true := by
  refine ⟨by decide, by decide⟩

/-- C2 (amended): for every call to `poll` with `length > 8`, `poll`
immediately returns the sentinel with no bus interaction — no transmit, no
filter change (the whole bus state, filters and log, is untouched).  Negative
lengths are not rejected by the guard. -/
theorem C2_poll_len_gt8_no_interaction (node_id timeout : Nat) (env : BusEnv)
    (header filter mode : Nat) (frame : Bool) (payload : List Nat) (len : Int)
    (b : BusState) (h : len > 8) :
    poll node_id timeout env header filter mode frame payload len b
      = ⟨some SENTINEL, b⟩ := by
  simp [poll, h]

/-- Witness for C2 (amended): a concrete call with `length = 9` returns the
sentinel and leaves the bus state untouched. -/
theorem C2_witness :
    poll 0x100 50 ⟨CAN_NO_ERROR, 0, []⟩ 0x200 0x200 CALL_AND_RESP false []
      9 (idle 0x100) = ⟨some SENTINEL, idle 0x100⟩ :=
  C2_poll_len_gt8_no_interaction 0x100 50 ⟨CAN_NO_ERROR, 0, []⟩ 0x200 0x200
    CALL_AND_RESP false [] 9 (idle 0x100) (by decide)

/-- C3: for every length in `[0,8]` and every byte array, `decode` equals the
little-endian packing of the first `length` bytes zero-extended to 64 bits,
i.e. the sum over `i < length` of `bytes[i] * 2^(8*i)`. -/
theorem C3_decode_is_le_sum (arr : List Nat) (len : Nat) (h : len ≤ 8) :
    decode arr len = decodeSpec arr len :=
  decode_eq_sum arr len h

/-- Witness for C3: both sides evaluate to `197121` on `[1, 2, 3]`. -/
theorem C3_witness :
    decode [1, 2, 3] 3 = 197121 ∧ decodeSpec [1, 2, 3] 3 = 197121 :=
  ⟨(C3_decode_is_le_sum [1, 2, 3] 3 (by decide)).trans (by decide), by decide⟩

/-- C4: if the bus error status is not `NO_ERROR` when checked before the
wait loop, `poll` transmits exactly one diagnostic frame whose identifier
equals the node's own identifier, restores the default filter, and returns
the sentinel without performing any receive attempt (no wait loop entered):
the interaction log is fully characterized. -/
theorem C4_bus_error_path (node_id timeout : Nat) (env : BusEnv)
    (header filter mode : Nat) (frame : Bool) (payload : List Nat) (len : Int)
    (he : env.errorStatus ≠ CAN_NO_ERROR) (h0 : 0 ≤ len) (h8 : len ≤ 8) :
    poll node_id timeout env header filter mode frame payload len
        (idle node_id)
      = ⟨some SENTINEL,
         ⟨[(node_id, 0x7FF)],
          [BusEvent.clearFilters, BusEvent.addFilter filter 0x7FF]
            ++ (if mode = CALL_AND_RESP then
                  [BusEvent.transmit
                    ⟨header, u8ofInt len, frame, writeData payload len.toNat⟩]
                else [])
            ++ [BusEvent.errorCheck,
                BusEvent.transmit ⟨node_id, 0, false, List.replicate 8 0⟩,
                BusEvent.clearFilters,
                BusEvent.addFilter node_id 0x7FF]⟩⟩ ∧
    BusEvent.receiveAttempt ∉
      (poll node_id timeout env header filter mode frame payload len
        (idle node_id)).bus.log := by
  have hlen : ¬ len > 8 := by omega
  by_cases hm : mode = CALL_AND_RESP <;>
    simp [poll, hlen, he, hm, idle, set_mask, set_mask_default, addFilter,
      clearFilters, transmit]

/-- Witness for C4: a concrete errored bus; `poll` returns the sentinel, the
log shows the single diagnostic transmit addressed to `0x100`, and no
receive attempt occurs. -/
theorem C4_witness :
    poll 0x100 50 ⟨3, 0, []⟩ 0x200 0x200 CALL_AND_RESP false [1, 2] 2
        (idle 0x100)
      = ⟨some SENTINEL,
         ⟨[(0x100, 0x7FF)],
          [BusEvent.clearFilters, BusEvent.addFilter 0x200 0x7FF]
            ++ (if CALL_AND_RESP = CALL_AND_RESP then
                  [BusEvent.transmit
                    ⟨0x200, u8ofInt 2, false, writeData [1, 2] (Int.toNat 2)⟩]
                else [])
            ++ [BusEvent.errorCheck,
                BusEvent.transmit ⟨0x100, 0, false, List.replicate 8 0⟩,
                BusEvent.clearFilters,
                BusEvent.addFilter 0x100 0x7FF]⟩⟩ ∧
    BusEvent.receiveAttempt ∉
      (poll 0x100 50 ⟨3, 0, []⟩ 0x200 0x200 CALL_AND_RESP false [1, 2] 2
        (idle 0x100)).bus.log :=
  C4_bus_error_path 0x100 50 ⟨3, 0, []⟩ 0x200 0x200 CALL_AND_RESP false
    [1, 2] 2 (by decide) (by decide) (by decide)

/-- C5: if the bus has no error and a frame is received in the wait loop,
`poll` restores the default filter and returns the decoded 64-bit value of
the first received frame immediately, with no further filtering by header or
content. -/
theorem C5_receive_returns_decoded (node_id timeout t0 : Nat)
    (pre rest : List (Option CANMessage × Nat)) (m : CANMessage) (t : Nat)
    (header filter mode : Nat) (frame : Bool) (payload : List Nat) (len : Int)
    (b : BusState) (h0 : 0 ≤ len) (h8 : len ≤ 8)
    (hpre : ∀ s ∈ pre, s.1 = none ∧ usub32 s.2 t0 < timeout) :
    (poll node_id timeout ⟨CAN_NO_ERROR, t0, pre ++ (some m, t) :: rest⟩
        header filter mode frame payload len b).ret
      = some (decode m.data m.len) ∧
    (poll node_id timeout ⟨CAN_NO_ERROR, t0, pre ++ (some m, t) :: rest⟩
        header filter mode frame payload len b).bus.filters
      = [(node_id, 0x7FF)] := by
  have hlen : ¬ len > 8 := by omega
  simp only [poll, if_neg hlen, if_pos rfl]
  exact pollWait_receive node_id timeout t0 m t rest pre _ hpre

/-- Witness for C5: the spec scenario — node id `0x100`, timeout 50, header
and filter `0x200`, payload `[0x01, 0x02]` of length 2; a received frame with
data `[0x2A, 0, 0, 0, 0, 0, 0, 0]` of length 8 makes `poll` return `42` with
the default filter restored. -/
theorem C5_witness :
    (poll 0x100 50 ⟨CAN_NO_ERROR, 0,
        [(some ⟨0x100, 8, false, [0x2A, 0, 0, 0, 0, 0, 0, 0]⟩, 10)]⟩
      0x200 0x200 CALL_AND_RESP false [0x01, 0x02] 2 (idle 0x100)).ret
        = some 42 ∧
    (poll 0x100 50 ⟨CAN_NO_ERROR, 0,
        [(some ⟨0x100, 8, false, [0x2A, 0, 0, 0, 0, 0, 0, 0]⟩, 10)]⟩
      0x200 0x200 CALL_AND_RESP false [0x01, 0x02] 2
        (idle 0x100)).bus.filters = [(0x100, 0x7FF)] := by
  have h := C5_receive_returns_decoded 0x100 50 0 [] []
    ⟨0x100, 8, false, [0x2A, 0, 0, 0, 0, 0, 0, 0]⟩ 10 0x200 0x200
    CALL_AND_RESP false [0x01, 0x02] 2 (idle 0x100) (by decide) (by decide)
    (by simp)
  exact ⟨h.1.trans (by decide), h.2⟩

/-- C6: if the bus has no error and no frame arrives before the elapsed time
reaches the configured timeout, `poll` restores the default filter and
returns the sentinel `0xFFFFFFFFFFFFFFFF`. -/
theorem C6_timeout_returns_sentinel (node_id timeout t0 : Nat)
    (pre rest : List (Option CANMessage × Nat)) (t : Nat)
    (header filter mode : Nat) (frame : Bool) (payload : List Nat) (len : Int)
    (b : BusState) (h0 : 0 ≤ len) (h8 : len ≤ 8)
    (ht : usub32 t t0 ≥ timeout)
    (hpre : ∀ s ∈ pre, s.1 = none ∧ usub32 s.2 t0 < timeout) :
    (poll node_id timeout ⟨CAN_NO_ERROR, t0, pre ++ (none, t) :: rest⟩
        header filter mode frame payload len b).ret = some SENTINEL ∧
    (poll node_id timeout ⟨CAN_NO_ERROR, t0, pre ++ (none, t) :: rest⟩
        header filter mode frame payload len b).bus.filters
      = [(node_id, 0x7FF)] := by
  have hlen : ¬ len > 8 := by omega
  simp only [poll, if_neg hlen, if_pos rfl]
  exact pollWait_timeout node_id timeout t0 t rest ht pre _ hpre

/-- Witness for C6: the spec scenario — no frame arrives and the clock
reaches 60ms past the start with a 50ms timeout; `poll` returns the sentinel
and the filter is reset to `(0x100, 0x7FF)`. -/
theorem C6_witness :
    (poll 0x100 50 ⟨CAN_NO_ERROR, 0, [(none, 60)]⟩ 0x200 0x200 CALL_AND_RESP
      false [0x01, 0x02] 2 (idle 0x100)).ret = some SENTINEL ∧
    (poll 0x100 50 ⟨CAN_NO_ERROR, 0, [(none, 60)]⟩ 0x200 0x200 CALL_AND_RESP
      false [0x01, 0x02] 2 (idle 0x100)).bus.filters = [(0x100, 0x7FF)] :=
  C6_timeout_returns_sentinel 0x100 50 0 [] [] 60 0x200 0x200 CALL_AND_RESP
    false [0x01, 0x02] 2 (idle 0x100) (by decide) (by decide) (by decide)
    (by simp)

/-- C7: for every fixed valid length in `[0,8]`, `decode` is injective on
byte sequences of that length, and for every byte array `decode(bytes, 0)`
equals 0. -/
theorem C7_decode_injective_and_zero :
    (∀ len : Nat, len ≤ 8 → ∀ a b : List Nat, a.length = len →
      b.length = len → (∀ x ∈ a, x < 256) → (∀ x ∈ b, x < 256) →
      decode a len = decode b len → a = b) ∧
    ∀ arr : List Nat, decode arr 0 = 0 := by
  constructor
  · intro len hlen a b ha hb hxa hxb heq
    have h1 : decodeSpec a a.length = decodeSpec b b.length := by
      rw [ha, hb, ← decode_eq_sum a len hlen, ← decode_eq_sum b len hlen]
      exact heq
    exact decodeSpec_inj a b (by rw [ha, hb]) hxa hxb h1
  · intro arr
    simp [decode, show List.range 8 = [0, 1, 2, 3, 4, 5, 6, 7] from rfl]

/-- Witness for C7: the injectivity hypotheses are dischargeable at length 2
on `[1, 2]`, and `decode [7] 0 = 0`. -/
theorem C7_witness : ([1, 2] : List Nat) = [1, 2] ∧ decode [7] 0 = 0 :=
  ⟨C7_decode_injective_and_zero.1 2 (by decide) [1, 2] [1, 2] rfl rfl
    (by decide) (by decide) rfl,
   C7_decode_injective_and_zero.2 [7]⟩

/-- C8: for every header, mode, frame kind, payload, and length, the
four-argument overload returns the same result and performs the same bus
interactions as the five-argument `poll` with `filter = header` — pure
delegation. -/
theorem C8_overload_delegates (node_id timeout : Nat) (env : BusEnv)
    (header mode : Nat) (frame : Bool) (payload : List Nat) (len : Int)
    (b : BusState) :
    pollOverload node_id timeout env header mode frame payload len b
      = poll node_id timeout env header header mode frame payload len b :=
  rfl

/-- C9: for every call to `poll` with mode `PASSIVE_POLL` (spec name
PASSIVE_LISTEN), valid length, and no bus error, no frame is transmitted:
every logged bus interaction is a non-transmit event (filter installation,
error-status check, receive attempts, filter restoration). -/
theorem C9_passive_listen_no_transmit (node_id timeout : Nat) (env : BusEnv)
    (header filter : Nat) (frame : Bool) (payload : List Nat) (len : Int)
    (h0 : 0 ≤ len) (h8 : len ≤ 8) (he : env.errorStatus = CAN_NO_ERROR) :
    ((poll node_id timeout env header filter PASSIVE_POLL frame payload len
        (idle node_id)).bus.log.all fun e => !e.isTransmit) = true := by
  have hlen : ¬ len > 8 := by omega
  have hm : ¬ (PASSIVE_POLL = CALL_AND_RESP) := by decide
  simp only [poll, if_neg hlen, if_neg hm, he, if_pos rfl]
  apply pollWait_no_transmit
  simp [idle, set_mask, addFilter, clearFilters, BusEvent.isTransmit]

/-- Witness for C9: a concrete passive listen that times out; the log holds
no transmit event. -/
theorem C9_witness :
    ((poll 0x100 50 ⟨CAN_NO_ERROR, 0, [(none, 20), (none, 60)]⟩ 0x200 0x200
      PASSIVE_POLL false [] 0 (idle 0x100)).bus.log.all
        fun e => !e.isTransmit) = true :=
  C9_passive_listen_no_transmit 0x100 50 ⟨CAN_NO_ERROR, 0,
      [(none, 20), (none, 60)]⟩ 0x200 0x200 false [] 0
    (by decide) (by decide) rfl

/-- C10: for every length in `[0,8]` and every byte array, `decode` is
strictly below `2^(8*length)`; in particular for lengths at most 7 the
decoded value can never equal the sentinel, so a sentinel collision with a
legitimate payload is only possible for 8-byte payloads. -/
theorem C10_decode_lt_pow (arr : List Nat) (len : Nat) (h8 : len ≤ 8)
    (hb : ∀ x ∈ arr, x < 256) :
    decode arr len < 2 ^ (8 * len) ∧
    (len ≤ 7 → decode arr len ≠ SENTINEL) := by
  have h1 : decode arr len < 2 ^ (8 * len) := by
    rw [decode_eq_sum arr len h8]
    exact decodeSpec_lt arr hb len
  refine ⟨h1, fun h7 hs => ?_⟩
  have h2 : 2 ^ (8 * len) ≤ 2 ^ 56 :=
    Nat.pow_le_pow_right (by norm_num) (by omega)
  have h3 : SENTINEL < 2 ^ 56 := hs ▸ lt_of_lt_of_le h1 h2
  exact absurd h3 (by decide)

/-- Witness for C10: the all-ones 2-byte payload decodes below `2^16` and is
not the sentinel. -/
theorem C10_witness :
    decode [255, 255] 2 < 2 ^ (8 * 2) ∧
    (2 ≤ 7 → decode [255, 255] 2 ≠ SENTINEL) :=
  C10_decode_lt_pow [255, 255] 2 (by decide) (by decide)

end CANTelemetry
